import Mathlib

/-
Verification of the form2list batch transformer (src/form2list/__init__.py)
against its natural-language specification.

The embedding is shallow: the pure cell-addressing function is translated
directly; the matcher, row writer and batch orchestrator are translated as
explicit state passing over a context mapping and a workbook map.  The two
external collaborators (the Jinja2 template renderer and the truthiness of
ast.literal_eval applied to a rendered condition) are modelled as function
parameters `render` and `evalT`; concrete instances are supplied for
witnesses.
-/

namespace Form2List

/-! ## Cell addressing (column_number_to_name, src lines 37-43) -/

/-- Embedding of `column_number_to_name`: the while loop
`while n > 0: n, remainder = divmod(n - 1, 26); name = chr(65 + remainder) + name`
becomes recursion prepending earlier remainders to the left, i.e. the
recursive result for the reduced `n` is the prefix of the current letter.
Python `divmod` on the non-negative `n - 1` agrees with Lean integer
division here. -/
def column_number_to_name (n : Int) : String :=
  if _h : 0 < n then
    column_number_to_name ((n - 1) / 26) ++ (Char.ofNat (65 + ((n - 1) % 26).toNat)).toString
  else ""
termination_by n.toNat
decreasing_by
  simp_wf
  omega

theorem cn_pos (n : Int) (h : 0 < n) :
    column_number_to_name n
      = column_number_to_name ((n - 1) / 26)
        ++ (Char.ofNat (65 + ((n - 1) % 26).toNat)).toString := by
  rw [column_number_to_name]
  simp [h]

theorem cn_nonpos (n : Int) (h : n ≤ 0) : column_number_to_name n = "" := by
  rw [column_number_to_name]
  simp
  omega

/-- Fuel-indexed twin of `column_number_to_name`, used only to evaluate the
well-founded definition on concrete inputs by kernel reduction. -/
def colNameSteps : Nat → Int → String
  | 0, _ => ""
  | fuel + 1, n =>
    if 0 < n then
      colNameSteps fuel ((n - 1) / 26) ++ (Char.ofNat (65 + ((n - 1) % 26).toNat)).toString
    else ""

theorem cn_eq_steps : ∀ (fuel : Nat) (n : Int), n.toNat ≤ fuel →
    column_number_to_name n = colNameSteps fuel n := by
  intro fuel
  induction fuel with
  | zero =>
    intro n h
    rw [cn_nonpos n (by omega)]
    rfl
  | succ f ih =>
    intro n h
    by_cases hp : 0 < n
    · rw [cn_pos n hp, colNameSteps, if_pos hp, ih ((n - 1) / 26) (by omega)]
    · rw [cn_nonpos n (by omega), colNameSteps, if_neg hp]

theorem colName_1 : column_number_to_name 1 = "A" := by
  rw [cn_eq_steps 1 1 (by decide)]
  decide

theorem colName_26 : column_number_to_name 26 = "Z" := by
  rw [cn_eq_steps 26 26 (by decide)]
  decide

theorem colName_27 : column_number_to_name 27 = "AA" := by
  rw [cn_eq_steps 27 27 (by decide)]
  decide

theorem colName_52 : column_number_to_name 52 = "AZ" := by
  rw [cn_eq_steps 52 52 (by decide)]
  decide

theorem colName_53 : column_number_to_name 53 = "BA" := by
  rw [cn_eq_steps 53 53 (by decide)]
  decide

theorem colName_702 : column_number_to_name 702 = "ZZ" := by
  rw [cn_eq_steps 702 702 (by decide)]
  decide

theorem colName_703 : column_number_to_name 703 = "AAA" := by
  rw [cn_eq_steps 703 703 (by decide)]
  decide

/-- Modelled from the spec: the inverse conversion `nameToColumnNumber`
(standard letters-to-number interpretation of bijective base-26), which is
absent from src; it exists only as the spec's round-trip test oracle. -/
def name_to_column_number (s : String) : Nat :=
  s.data.foldl (fun acc c => 26 * acc + (c.toNat - 64)) 0

theorem char_toNat_ofNat (k : Nat) (h : Nat.isValidChar k) : (Char.ofNat k).toNat = k := by
  simp [Char.ofNat, dif_pos h, Char.ofNatAux, Char.toNat, UInt32.toNat, BitVec.toNat_ofNatLt]

theorem ntcn_append_char (s : String) (c : Char) :
    name_to_column_number (s ++ c.toString) = 26 * name_to_column_number s + (c.toNat - 64) := by
  have hd : (s ++ c.toString).data = s.data ++ [c] := by
    rw [String.data_append]
    rfl
  unfold name_to_column_number
  rw [hd, List.foldl_append]
  rfl

theorem roundtrip_nat : ∀ n : Nat, 0 < n →
    name_to_column_number (column_number_to_name (n : Int)) = n := by
  intro n
  induction n using Nat.strong_induction_on with
  | _ n ih =>
    intro hn
    rw [cn_pos (n : Int) (by exact_mod_cast hn), ntcn_append_char]
    have hq : ((n : Int) - 1) / 26 = ((n - 1) / 26 : Nat) := by omega
    have hr : (((n : Int) - 1) % 26).toNat = (n - 1) % 26 := by omega
    rw [hq, hr, char_toNat_ofNat (65 + (n - 1) % 26) (Or.inl (by omega))]
    by_cases hq0 : (n - 1) / 26 = 0
    · rw [hq0]
      show 26 * name_to_column_number (column_number_to_name 0) + (65 + (n - 1) % 26 - 64) = n
      rw [cn_nonpos 0 (by omega)]
      have h0 : name_to_column_number "" = 0 := rfl
      rw [h0]
      omega
    · have hlt : (n - 1) / 26 < n := by omega
      rw [ih ((n - 1) / 26) hlt (by omega)]
      omega

/-! ## Data model

Cell values read from an input workbook, and the values stored in the
per-document context dict, are Python values; the subset relevant here is
modelled by `PyVal`.  The context is the Python dict `context`, modelled as
a partial map with overwriting update. -/

inductive PyVal where
  | vNone : PyVal
  | vStr : String → PyVal
  | vInt : Int → PyVal
deriving DecidableEq

def Ctx : Type := String → Option PyVal

def emptyCtx : Ctx := fun _ => none

def updateCtx (ctx : Ctx) (key : String) (v : PyVal) : Ctx :=
  fun k => if k = key then some v else ctx k

/-- A compiled input format: `items` (field name, source cell address) in
iteration order, and the compiled condition template string (after
`spec.get('condition', 'True')` in `setup_templates`). -/
structure FormatSpec where
  items : List (String × String)
  condition : String
deriving DecidableEq

/-- A compiled output sheet: name, `rowOffset` (default 0 applied), and the
column value template strings in declared order. -/
structure SheetSpec where
  name : String
  rowOffset : Int
  columns : List String
deriving DecidableEq

/-- The compiled configuration used by `process_file`. -/
structure Config where
  inputFormats : List FormatSpec
  sheets : List SheetSpec
  columnOffset : Int
deriving DecidableEq

/-- One cell write into the output workbook: target sheet, cell address,
rendered text. -/
structure WriteOp where
  sheet : String
  cell : String
  val : String
deriving DecidableEq

/-- The output workbook, as a map from (sheet name, cell address) to the
value last written there. -/
def Wb : Type := String → String → Option String

def applyOp (wb : Wb) (op : WriteOp) : Wb :=
  fun s c => if s = op.sheet ∧ c = op.cell then some op.val else wb s c

def applyOps (wb : Wb) (ops : List WriteOp) : Wb :=
  ops.foldl applyOp wb

/-! ## Matcher (process_file, src lines 51-63)

`render` models `Template.render` (a compiled template applied to the
context) and `evalT` models the truthiness of `literal_eval` applied to the
rendered text; both are external collaborators. -/

/-- The inner loop `for key, cell in spec['items'].items(): context[key] = ws[cell].value`:
every field of the format overwrites its key in the context with the value
read from the input document at the field's source cell. -/
def readItems (doc : String → PyVal) (items : List (String × String)) (ctx : Ctx) : Ctx :=
  items.foldl (fun c p => updateCtx c p.1 (doc p.2)) ctx

/-- The matching loop of `process_file`: formats are tried in order, each
attempt first merges the format's fields into the (persistent) context,
then renders the condition and evaluates it; the first truthy condition
stops the loop with the format and the accumulated context. `none` models
`found = False` (the unmatched-document failure). -/
def tryFormats (render : String → Ctx → String) (evalT : String → Bool)
    (doc : String → PyVal) : List FormatSpec → Ctx → Option (FormatSpec × Ctx)
  | [], _ => none
  | f :: rest, ctx =>
    let ctx1 := readItems doc f.items ctx
    if evalT (render f.condition ctx1) = true then some (f, ctx1)
    else tryFormats render evalT doc rest ctx1

/-- The context accumulated after the matching loop has read the `items` of
the first `k` formats of the list. -/
def accumCtx (doc : String → PyVal) : Nat → List FormatSpec → Ctx → Ctx
  | 0, _, ctx => ctx
  | _ + 1, [], ctx => ctx
  | k + 1, f :: rest, ctx => accumCtx doc k rest (readItems doc f.items ctx)

/-! ## Row writer (process_file, src lines 64-79) -/

/-- The inner column loop of `process_file`: for each column value template,
in order, set `column_number` (local 1-based counter plus the global
`columnOffset`), `column`, `cell` in the context, render the value template
against the full context and emit the write.  Returns the writes in program
order together with the final context. -/
def writeCols (render : String → Ctx → String) (sName : String) (colOff : Int)
    (rowStr : String) : List String → Int → Ctx → List WriteOp × Ctx
  | [], _, ctx => ([], ctx)
  | v :: rest, cn, ctx =>
    let cnum : Int := cn + colOff
    let colName : String := column_number_to_name cnum
    let cellAddr : String := colName ++ rowStr
    let ctx1 : Ctx :=
      updateCtx (updateCtx (updateCtx ctx "column_number" (PyVal.vInt cnum))
        "column" (PyVal.vStr colName)) "cell" (PyVal.vStr cellAddr)
    let res := writeCols render sName colOff rowStr rest (cn + 1) ctx1
    (WriteOp.mk sName cellAddr (render v ctx1) :: res.1, res.2)

/-- One output sheet: `row_number` is the sequential row number plus the
sheet's `rowOffset`, stored in the context in numeric and string form, then
the columns are written with the local counter starting at 1. -/
def writeSheet (render : String → Ctx → String) (colOff : Int) (rowNumber : Int)
    (s : SheetSpec) (ctx : Ctx) : List WriteOp × Ctx :=
  let rn : Int := rowNumber + s.rowOffset
  let rowStr : String := toString rn
  let ctx1 : Ctx := updateCtx (updateCtx ctx "row_number" (PyVal.vInt rn))
    "row" (PyVal.vStr rowStr)
  writeCols render s.name colOff rowStr s.columns 1 ctx1

def writeSheets (render : String → Ctx → String) (colOff : Int) (rowNumber : Int) :
    List SheetSpec → Ctx → List WriteOp × Ctx
  | [], ctx => ([], ctx)
  | s :: rest, ctx =>
    let r1 := writeSheet render colOff rowNumber s ctx
    let r2 := writeSheets render colOff rowNumber rest r1.2
    (r1.1 ++ r2.1, r2.2)

/-- An input document together with the path parts `os.path.dirname` and
`os.path.basename` of its file path; `doc` is the cell-address-to-value
view of its active sheet. -/
structure InputFile where
  dirname : String
  basename : String
  doc : String → PyVal

/-- Embedding of `process_file`: match the document against the formats
starting from an empty context; on failure return `none` (the function
returns `False` before writing anything); on success add `dirname` and
`basename` and produce the writes of every configured sheet. -/
def process_file (render : String → Ctx → String) (evalT : String → Bool)
    (cfg : Config) (f : InputFile) (rowNumber : Int) : Option (List WriteOp) :=
  match tryFormats render evalT f.doc cfg.inputFormats emptyCtx with
  | none => none
  | some pr =>
    let ctx1 := updateCtx (updateCtx pr.2 "dirname" (PyVal.vStr f.dirname))
      "basename" (PyVal.vStr f.basename)
    some (writeSheets render cfg.columnOffset rowNumber cfg.sheets ctx1).1

/-! ## Batch orchestrator (main, src lines 95-130) -/

/-- The per-file loop of `main`: `row_number` starts at 1 and increments
after every file; a `False` result from `process_file` aborts immediately
with no save. -/
def runFiles (render : String → Ctx → String) (evalT : String → Bool)
    (cfg : Config) : List InputFile → Int → Wb → Option Wb
  | [], _, wb => some wb
  | f :: rest, rn, wb =>
    match process_file render evalT cfg f rn with
    | none => none
    | some ops => runFiles render evalT cfg rest (rn + 1) (applyOps wb ops)

/-- Embedding of the batch part of `main`: exit code together with the
workbook passed to `template_wb.save` (`none` when save is never reached).
The empty-input check and the abort-on-unmatched path both return exit
code 1 before any save. -/
def main_run (render : String → Ctx → String) (evalT : String → Bool)
    (cfg : Config) (files : List InputFile) (wb0 : Wb) : Nat × Option Wb :=
  if files.isEmpty then (1, none)
  else
    match runFiles render evalT cfg files 1 wb0 with
    | none => (1, none)
    | some wb => (0, some wb)

/-! ## Template compilation (setup_templates, src lines 82-89)

The raw parsed YAML configuration is modelled with `Option` fields for the
keys the code accesses optionally (`.get`) or whose absence raises
`KeyError` (subscript access).  `setup_templates` is embedded as a function
into `Except String`, the error carrying the name of the missing key, as a
Python `KeyError` does. -/

structure RawColumn where
  value : Option String
deriving DecidableEq

structure RawSheet where
  name : String
  rowOffset : Option Int
  columns : Option (List RawColumn)
deriving DecidableEq

structure RawFormat where
  items : List (String × String)
  condition : Option String
deriving DecidableEq

structure RawConfig where
  inputFormats : Option (List RawFormat)
  sheets : Option (List RawSheet)
  columnOffset : Option Int
deriving DecidableEq

/-- `spec['condition_template'] = Template(spec.get('condition', 'True'))`:
a format compiles unconditionally, with the condition defaulting to the
literal text `True`. -/
def compileFormat (rf : RawFormat) : FormatSpec :=
  FormatSpec.mk rf.items (rf.condition.getD "True")

/-- `for col in sheet_config.get('columns', []): col['value_template'] = Template(col['value'])`:
each column requires its `value` key; its absence raises `KeyError('value')`. -/
def compileColumns : List RawColumn → Except String (List String)
  | [] => Except.ok []
  | c :: rest =>
    match c.value with
    | none => Except.error "value"
    | some v =>
      match compileColumns rest with
      | Except.error e => Except.error e
      | Except.ok vs => Except.ok (v :: vs)

/-- A sheet compiles from `sheet_config.get('columns', [])`: a missing
`columns` key silently defaults to an empty column list. -/
def compileSheet (s : RawSheet) : Except String SheetSpec :=
  match compileColumns (s.columns.getD []) with
  | Except.error e => Except.error e
  | Except.ok cols => Except.ok (SheetSpec.mk s.name (s.rowOffset.getD 0) cols)

def compileSheets : List RawSheet → Except String (List SheetSpec)
  | [] => Except.ok []
  | s :: rest =>
    match compileSheet s with
    | Except.error e => Except.error e
    | Except.ok s1 =>
      match compileSheets rest with
      | Except.error e => Except.error e
      | Except.ok ss => Except.ok (s1 :: ss)

/-- Embedding of `setup_templates`: `config['inputFormats']` is accessed
first (KeyError `inputFormats` if absent), then `config['sheets']`
(KeyError `sheets`), then every declared column's `value`.  On success the
compiled configuration also carries `config.get('columnOffset', 0)`, read
by `process_file`. -/
def setup_templates (cfg : RawConfig) : Except String Config :=
  match cfg.inputFormats with
  | none => Except.error "inputFormats"
  | some fmts =>
    match cfg.sheets with
    | none => Except.error "sheets"
    | some sheets =>
      match compileSheets sheets with
      | Except.error e => Except.error e
      | Except.ok ss => Except.ok (Config.mk (fmts.map compileFormat) ss (cfg.columnOffset.getD 0))

/-- The `except KeyError` handler around `setup_templates` in `main`
(src lines 107-111): a compilation error is reported and the run exits
with code 1, otherwise the run proceeds (exit contribution 0). -/
def main_setup (cfg : RawConfig) : Nat :=
  match setup_templates cfg with
  | Except.error _ => 1
  | Except.ok _ => 0

/-! ## Concrete fixtures used by witnesses and counterexamples

`renderSelf` is Jinja2 rendering restricted to templates that contain no
substitution, which render to themselves; `evalTrueLit` is the truthiness
of `ast.literal_eval` restricted to the boolean literal texts. -/

def renderSelf : String → Ctx → String := fun t _ => t

def evalTrueLit : String → Bool := fun s => s = "True"

def docEmpty : String → PyVal := fun _ => PyVal.vNone

def wbEmpty : Wb := fun _ _ => none

def fmtTrue : FormatSpec := FormatSpec.mk [] "True"

def fmtFalse : FormatSpec := FormatSpec.mk [] "False"

def sheetOff10 : SheetSpec := SheetSpec.mk "S" 10 ["v"]

def sheetPlain : SheetSpec := SheetSpec.mk "S" 0 ["v"]

/-- A configuration whose `inputFormats` list is empty. -/
def cfgNoFormats : Config := Config.mk [] [sheetPlain] 0

def fileA : InputFile := InputFile.mk "d" "a.xlsx" docEmpty

/-! ## Matcher lemmas -/

theorem updateCtx_isSome (ctx : Ctx) (key : String) (v : PyVal) (k : String)
    (h : (ctx k).isSome = true) : (updateCtx ctx key v k).isSome = true := by
  unfold updateCtx
  by_cases hk : k = key
  · simp [hk]
  · simp [hk, h]

theorem readItems_isSome (doc : String → PyVal) : ∀ (items : List (String × String))
    (ctx : Ctx) (k : String), (ctx k).isSome = true →
    (readItems doc items ctx k).isSome = true := by
  intro items
  induction items with
  | nil =>
    intro ctx k h
    exact h
  | cons p rest ih =>
    intro ctx k h
    have hr : readItems doc (p :: rest) ctx = readItems doc rest (updateCtx ctx p.1 (doc p.2)) := rfl
    rw [hr]
    exact ih _ k (updateCtx_isSome ctx p.1 (doc p.2) k h)

theorem tryFormats_skip (render : String → Ctx → String) (evalT : String → Bool)
    (doc : String → PyVal) (f : FormatSpec) (rest : List FormatSpec) (ctx : Ctx)
    (h : evalT (render f.condition (readItems doc f.items ctx)) = false) :
    tryFormats render evalT doc (f :: rest) ctx
      = tryFormats render evalT doc rest (readItems doc f.items ctx) := by
  simp [tryFormats, h]

theorem tryFormats_ctx_isSome (render : String → Ctx → String) (evalT : String → Bool)
    (doc : String → PyVal) : ∀ (fs : List FormatSpec) (ctx : Ctx) (g : FormatSpec)
    (c : Ctx) (k : String), tryFormats render evalT doc fs ctx = some (g, c) →
    (ctx k).isSome = true → (c k).isSome = true := by
  intro fs
  induction fs with
  | nil =>
    intro ctx g c k h hk
    simp [tryFormats] at h
  | cons f rest ih =>
    intro ctx g c k h hk
    by_cases hc : evalT (render f.condition (readItems doc f.items ctx)) = true
    · have he : tryFormats render evalT doc (f :: rest) ctx
          = some (f, readItems doc f.items ctx) := by
        simp [tryFormats, hc]
      rw [he] at h
      have hp := Option.some.inj h
      have hcc : readItems doc f.items ctx = c := congrArg Prod.snd hp
      rw [← hcc]
      exact readItems_isSome doc f.items ctx k hk
    · have hcf : evalT (render f.condition (readItems doc f.items ctx)) = false := by
        rw [← Bool.not_eq_true]
        exact hc
      rw [tryFormats_skip render evalT doc f rest ctx hcf] at h
      exact ih _ g c k h (readItems_isSome doc f.items ctx k hk)

/-- Claim C1: the matcher selects the first FormatSpec in `inputFormats`
order whose condition, rendered against the accumulated context and then
evaluated as a literal (`evalT` composed with `render`), is truthy; the
loop stops there, so when several formats would be truthy the earliest one
wins, and the returned context is the one accumulated through the selected
format's fields. -/
theorem c1_matcher_first_truthy (render : String → Ctx → String) (evalT : String → Bool)
    (doc : String → PyVal) (fs : List FormatSpec) (ctx : Ctx) (i : Nat) (fi : FormatSpec)
    (hget : fs[i]? = some fi)
    (htruthy : evalT (render fi.condition (accumCtx doc (i + 1) fs ctx)) = true)
    (hbefore : ∀ (j : Nat) (fj : FormatSpec), j < i → fs[j]? = some fj →
      evalT (render fj.condition (accumCtx doc (j + 1) fs ctx)) = false) :
    tryFormats render evalT doc fs ctx = some (fi, accumCtx doc (i + 1) fs ctx) := by
  induction fs generalizing ctx i with
  | nil => simp at hget
  | cons f rest ih =>
    cases i with
    | zero =>
      have hf : f = fi := by simpa using hget
      subst hf
      have hacc : accumCtx doc 1 (f :: rest) ctx = readItems doc f.items ctx := rfl
      rw [hacc] at htruthy ⊢
      simp [tryFormats, htruthy]
    | succ j =>
      have hget2 : rest[j]? = some fi := by simpa using hget
      have hfalse : evalT (render f.condition (readItems doc f.items ctx)) = false := by
        have hb := hbefore 0 f (Nat.succ_pos j) (by simp)
        exact hb
      rw [tryFormats_skip render evalT doc f rest ctx hfalse]
      exact ih (readItems doc f.items ctx) j hget2 htruthy
        (fun j0 fj hj0 hgetj => hbefore (j0 + 1) fj (by omega) (by simpa using hgetj))

/-- Witness for C1: with two formats whose conditions both render to the
literal `True`, the first one is selected together with the context
accumulated through it alone. -/
theorem c1_matcher_first_truthy_witness :
    tryFormats renderSelf evalTrueLit docEmpty
        [FormatSpec.mk [("k", "B1")] "True", FormatSpec.mk [("k2", "B2")] "True"] emptyCtx
      = some (FormatSpec.mk [("k", "B1")] "True",
          accumCtx docEmpty 1
            [FormatSpec.mk [("k", "B1")] "True", FormatSpec.mk [("k2", "B2")] "True"]
            emptyCtx) :=
  c1_matcher_first_truthy renderSelf evalTrueLit docEmpty
    [FormatSpec.mk [("k", "B1")] "True", FormatSpec.mk [("k2", "B2")] "True"] emptyCtx 0
    (FormatSpec.mk [("k", "B1")] "True") rfl rfl
    (fun j _fj hj _ => absurd hj (Nat.not_lt_zero j))

/-- Claim C6: during the processing of one document the context only gains
or overwrites keys: a field merge preserves every present key, a format
attempt whose condition is falsy hands its enriched context on to the next
attempt unchanged, and any key present before matching is still present in
the matched context handed to the value templates. -/
theorem c6_context_monotone :
    (∀ (doc : String → PyVal) (items : List (String × String)) (ctx : Ctx) (k : String),
        (ctx k).isSome = true → (readItems doc items ctx k).isSome = true)
    ∧ (∀ (render : String → Ctx → String) (evalT : String → Bool) (doc : String → PyVal)
        (f : FormatSpec) (rest : List FormatSpec) (ctx : Ctx),
        evalT (render f.condition (readItems doc f.items ctx)) = false →
        tryFormats render evalT doc (f :: rest) ctx
          = tryFormats render evalT doc rest (readItems doc f.items ctx))
    ∧ (∀ (render : String → Ctx → String) (evalT : String → Bool) (doc : String → PyVal)
        (fs : List FormatSpec) (ctx : Ctx) (g : FormatSpec) (c : Ctx) (k : String),
        tryFormats render evalT doc fs ctx = some (g, c) →
        (ctx k).isSome = true → (c k).isSome = true) :=
  ⟨readItems_isSome,
   tryFormats_skip,
   fun render evalT doc fs ctx g c k => tryFormats_ctx_isSome render evalT doc fs ctx g c k⟩

/-- Witness for C6: a key set before a field merge is still present after
the merge overwrites an unrelated key. -/
theorem c6_context_monotone_witness :
    ((updateCtx emptyCtx "x" (PyVal.vInt 1)) "x").isSome = true
    ∧ (readItems docEmpty [("a", "B2")] (updateCtx emptyCtx "x" (PyVal.vInt 1)) "x").isSome = true :=
  ⟨rfl, c6_context_monotone.1 docEmpty [("a", "B2")] (updateCtx emptyCtx "x" (PyVal.vInt 1)) "x" rfl⟩

/-- Claim C9: the matcher is deterministic: two runs of the matching step
on the same document cell values and the same compiled configuration yield
the same result (same selected FormatSpec, or both unmatched) and identical
context mappings. -/
theorem c9_matcher_deterministic (render : String → Ctx → String) (evalT : String → Bool)
    (doc : String → PyVal) (fs : List FormatSpec) (ctx : Ctx)
    (r1 r2 : Option (FormatSpec × Ctx))
    (h1 : r1 = tryFormats render evalT doc fs ctx)
    (h2 : r2 = tryFormats render evalT doc fs ctx) : r1 = r2 := by
  rw [h1, h2]

/-- Witness for C9 at a concrete document and configuration. -/
theorem c9_matcher_deterministic_witness :
    tryFormats renderSelf evalTrueLit docEmpty [fmtTrue] emptyCtx
      = tryFormats renderSelf evalTrueLit docEmpty [fmtTrue] emptyCtx :=
  c9_matcher_deterministic renderSelf evalTrueLit docEmpty [fmtTrue] emptyCtx
    (tryFormats renderSelf evalTrueLit docEmpty [fmtTrue] emptyCtx)
    (tryFormats renderSelf evalTrueLit docEmpty [fmtTrue] emptyCtx) rfl rfl

/-- Counterexample to C7 as stated: against a configuration whose
`inputFormats` list is empty the matching loop never runs, `found` stays
false, and the document IS reported unmatched (`process_file` fails). -/
theorem c7_counterexample :
    tryFormats renderSelf evalTrueLit docEmpty cfgNoFormats.inputFormats emptyCtx = none
    ∧ process_file renderSelf evalTrueLit cfgNoFormats fileA 1 = none :=
  ⟨rfl, rfl⟩

/-- Claim C7 (amended): an empty `inputFormats` list matches nothing, so
every document processed against it is reported unmatched; a list whose
single entry has no `condition` (which `setup_templates` defaults to the
literal text `True`) matches that entry trivially whenever the rendered
default condition evaluates truthy. -/
theorem c7_amended_empty_or_default :
    (∀ (render : String → Ctx → String) (evalT : String → Bool) (doc : String → PyVal)
        (ctx : Ctx), tryFormats render evalT doc [] ctx = none)
    ∧ (∀ (render : String → Ctx → String) (evalT : String → Bool) (doc : String → PyVal)
        (ctx : Ctx) (rf : RawFormat), rf.condition = none →
        evalT (render "True" (readItems doc rf.items ctx)) = true →
        tryFormats render evalT doc [compileFormat rf] ctx
          = some (compileFormat rf, readItems doc rf.items ctx)) := by
  constructor
  · intro render evalT doc ctx
    rfl
  · intro render evalT doc ctx rf hc ht
    have hcond : (compileFormat rf).condition = "True" := by
      simp [compileFormat, hc]
    have hitems : (compileFormat rf).items = rf.items := rfl
    simp [tryFormats, hitems, hcond, ht]

/-- Witness for the amended C7: a single format without a condition matches
trivially under the modelled renderer and literal evaluator. -/
theorem c7_amended_witness :
    tryFormats renderSelf evalTrueLit docEmpty [compileFormat (RawFormat.mk [] none)] emptyCtx
      = some (compileFormat (RawFormat.mk [] none), readItems docEmpty [] emptyCtx) :=
  c7_amended_empty_or_default.2 renderSelf evalTrueLit docEmpty emptyCtx
    (RawFormat.mk [] none) rfl rfl

/-! ## Orchestrator lemmas -/

theorem process_file_none (render : String → Ctx → String) (evalT : String → Bool)
    (cfg : Config) (f : InputFile) (rn : Int)
    (h : tryFormats render evalT f.doc cfg.inputFormats emptyCtx = none) :
    process_file render evalT cfg f rn = none := by
  unfold process_file
  rw [h]

theorem runFiles_none (render : String → Ctx → String) (evalT : String → Bool)
    (cfg : Config) : ∀ (files : List InputFile) (rn : Int) (wb : Wb),
    (∃ f ∈ files, tryFormats render evalT f.doc cfg.inputFormats emptyCtx = none) →
    runFiles render evalT cfg files rn wb = none := by
  intro files
  induction files with
  | nil =>
    intro rn wb h
    obtain ⟨f, hf, _⟩ := h
    simp at hf
  | cons f0 rest ih =>
    intro rn wb h
    obtain ⟨f, hf, hu⟩ := h
    rcases List.mem_cons.mp hf with hf0 | hfr
    · subst hf0
      have hp := process_file_none render evalT cfg f rn hu
      simp [runFiles, hp]
    · cases hpf : process_file render evalT cfg f0 rn with
      | none => simp [runFiles, hpf]
      | some ops =>
        have hrest := ih (rn + 1) (applyOps wb ops) ⟨f, hfr, hu⟩
        simp [runFiles, hpf, hrest]

/-- Claim C2: when some input document of the batch fails to match any
FormatSpec, the run exits with code 1 and nothing is persisted (the save of
the output workbook is never reached), and the unmatched document itself
produces no output writes at any row number. -/
theorem c2_abort_no_persist (render : String → Ctx → String) (evalT : String → Bool)
    (cfg : Config) (files : List InputFile) (wb0 : Wb)
    (h : ∃ f ∈ files, tryFormats render evalT f.doc cfg.inputFormats emptyCtx = none) :
    main_run render evalT cfg files wb0 = (1, none)
    ∧ ∀ f ∈ files, tryFormats render evalT f.doc cfg.inputFormats emptyCtx = none →
        ∀ rn : Int, process_file render evalT cfg f rn = none := by
  constructor
  · have hrun := runFiles_none render evalT cfg files 1 wb0 h
    obtain ⟨f, hf, _⟩ := h
    have hne : files.isEmpty = false := by
      cases files with
      | nil => simp at hf
      | cons a l => rfl
    simp [main_run, hne, hrun]
  · intro f _ hu rn
    exact process_file_none render evalT cfg f rn hu

/-- Witness for C2: a one-file batch against the empty-formats
configuration exits 1 and persists nothing. -/
theorem c2_abort_no_persist_witness :
    main_run renderSelf evalTrueLit cfgNoFormats [fileA] wbEmpty = (1, none) :=
  (c2_abort_no_persist renderSelf evalTrueLit cfgNoFormats [fileA] wbEmpty
    ⟨fileA, by simp, rfl⟩).1

/-! ## Row writer lemmas -/

theorem writeCols_ops (render : String → Ctx → String) (sName : String) (colOff : Int)
    (rowStr : String) : ∀ (cols : List String) (cn : Int) (ctx : Ctx) (i : Nat) (v : String),
    cols[i]? = some v →
    ∃ c : Ctx, ((writeCols render sName colOff rowStr cols cn ctx).1)[i]?
      = some (WriteOp.mk sName (column_number_to_name (cn + (i : Int) + colOff) ++ rowStr)
          (render v c)) := by
  intro cols
  induction cols with
  | nil =>
    intro cn ctx i v h
    simp at h
  | cons v0 rest ih =>
    intro cn ctx i v h
    have hunf : (writeCols render sName colOff rowStr (v0 :: rest) cn ctx).1
        = WriteOp.mk sName (column_number_to_name (cn + colOff) ++ rowStr)
            (render v0 (updateCtx (updateCtx (updateCtx ctx "column_number"
                (PyVal.vInt (cn + colOff)))
              "column" (PyVal.vStr (column_number_to_name (cn + colOff))))
              "cell" (PyVal.vStr (column_number_to_name (cn + colOff) ++ rowStr))))
          :: (writeCols render sName colOff rowStr rest (cn + 1)
              (updateCtx (updateCtx (updateCtx ctx "column_number"
                  (PyVal.vInt (cn + colOff)))
                "column" (PyVal.vStr (column_number_to_name (cn + colOff))))
                "cell" (PyVal.vStr (column_number_to_name (cn + colOff) ++ rowStr)))).1 := rfl
    cases i with
    | zero =>
      have hv : v0 = v := by simpa using h
      subst hv
      refine ⟨updateCtx (updateCtx (updateCtx ctx "column_number" (PyVal.vInt (cn + colOff)))
        "column" (PyVal.vStr (column_number_to_name (cn + colOff))))
        "cell" (PyVal.vStr (column_number_to_name (cn + colOff) ++ rowStr)), ?_⟩
      rw [hunf, List.getElem?_cons_zero,
        show cn + ((0 : Nat) : Int) + colOff = cn + colOff by push_cast; ring]
    | succ j =>
      have hrest : rest[j]? = some v := by simpa using h
      obtain ⟨c, hc⟩ := ih (cn + 1)
        (updateCtx (updateCtx (updateCtx ctx "column_number" (PyVal.vInt (cn + colOff)))
          "column" (PyVal.vStr (column_number_to_name (cn + colOff))))
          "cell" (PyVal.vStr (column_number_to_name (cn + colOff) ++ rowStr))) j v hrest
      refine ⟨c, ?_⟩
      rw [hunf, List.getElem?_cons_succ, hc,
        show cn + ((j + 1 : Nat) : Int) + colOff = cn + 1 + (j : Int) + colOff
          by push_cast; ring]

/-- Claim C5: for every sheet the row writer emits, for the i-th column
(0-based here, so local index i+1), a write into the cell whose address is
`column_number_to_name (i + 1 + columnOffset)` concatenated with the string
of the sequential row number plus the sheet's `rowOffset`, carrying the
i-th column's value template rendered against the context of that write. -/
theorem c5_row_writer (render : String → Ctx → String) (colOff rowNumber : Int)
    (s : SheetSpec) (ctx : Ctx) (i : Nat) (v : String)
    (hv : s.columns[i]? = some v) :
    ∃ c : Ctx, ((writeSheet render colOff rowNumber s ctx).1)[i]?
      = some (WriteOp.mk s.name
          (column_number_to_name ((i : Int) + 1 + colOff) ++ toString (rowNumber + s.rowOffset))
          (render v c)) := by
  obtain ⟨c, hc⟩ := writeCols_ops render s.name colOff (toString (rowNumber + s.rowOffset))
    s.columns 1
    (updateCtx (updateCtx ctx "row_number" (PyVal.vInt (rowNumber + s.rowOffset)))
      "row" (PyVal.vStr (toString (rowNumber + s.rowOffset)))) i v hv
  rw [show (1 : Int) + (i : Int) + colOff = (i : Int) + 1 + colOff by ring] at hc
  exact ⟨c, hc⟩

/-- Witness for C5: with `rowOffset = 10` a single document (sequential row
number 1) writes its first column to cell `A11`; the second document of a
batch (sequential row number 2) with `columnOffset = 0` writes its first
column to cell `A2`. -/
theorem c5_row_writer_witness :
    (∃ c : Ctx, ((writeSheet renderSelf 0 1 sheetOff10 emptyCtx).1)[0]?
        = some (WriteOp.mk "S" "A11" (renderSelf "v" c)))
    ∧ (∃ c : Ctx, ((writeSheet renderSelf 0 2 sheetPlain emptyCtx).1)[0]?
        = some (WriteOp.mk "S" "A2" (renderSelf "v" c))) := by
  constructor
  · obtain ⟨c, hc⟩ := c5_row_writer renderSelf 0 1 sheetOff10 emptyCtx 0 "v" rfl
    have h1 : column_number_to_name (((0 : Nat) : Int) + 1 + 0) = "A" := by
      norm_num [colName_1]
    have h2 : toString ((1 : Int) + sheetOff10.rowOffset) = "11" := rfl
    rw [h1, h2] at hc
    exact ⟨c, hc⟩
  · obtain ⟨c, hc⟩ := c5_row_writer renderSelf 0 2 sheetPlain emptyCtx 0 "v" rfl
    have h1 : column_number_to_name (((0 : Nat) : Int) + 1 + 0) = "A" := by
      norm_num [colName_1]
    have h2 : toString ((2 : Int) + sheetPlain.rowOffset) = "2" := rfl
    rw [h1, h2] at hc
    exact ⟨c, hc⟩

/-! ## Template compilation lemmas -/

theorem compileColumns_ok_iff : ∀ l : List RawColumn,
    (compileColumns l).isOk = true ↔ ∀ c ∈ l, c.value.isSome = true := by
  intro l
  induction l with
  | nil => simp [compileColumns, Except.isOk, Except.toBool]
  | cons c rest ih =>
    cases hc : c.value with
    | none =>
      simp [compileColumns, hc, Except.isOk, Except.toBool]
    | some v =>
      have he : (compileColumns (c :: rest)).isOk = (compileColumns rest).isOk := by
        rw [compileColumns, hc]
        cases compileColumns rest <;> simp [Except.isOk, Except.toBool]
      rw [he, ih]
      simp [hc]

theorem compileColumns_error : ∀ (l : List RawColumn) (e : String),
    compileColumns l = Except.error e → e = "value" := by
  intro l
  induction l with
  | nil =>
    intro e h
    simp [compileColumns] at h
  | cons c rest ih =>
    intro e h
    cases hc : c.value with
    | none =>
      rw [compileColumns, hc] at h
      exact (Except.error.inj h).symm
    | some v =>
      rw [compileColumns, hc] at h
      cases hr : compileColumns rest with
      | error e2 =>
        rw [hr] at h
        have he : e2 = e := Except.error.inj h
        rw [← he]
        exact ih e2 hr
      | ok vs =>
        rw [hr] at h
        simp at h

theorem compileSheet_ok_iff (s : RawSheet) :
    (compileSheet s).isOk = true ↔ ∀ c ∈ s.columns.getD [], c.value.isSome = true := by
  rw [← compileColumns_ok_iff]
  unfold compileSheet
  cases compileColumns (s.columns.getD []) <;> simp [Except.isOk, Except.toBool]

theorem compileSheet_error (s : RawSheet) (e : String)
    (h : compileSheet s = Except.error e) : e = "value" := by
  unfold compileSheet at h
  cases hr : compileColumns (s.columns.getD []) with
  | error e2 =>
    rw [hr] at h
    have he : e2 = e := Except.error.inj h
    rw [← he]
    exact compileColumns_error _ e2 hr
  | ok cols =>
    rw [hr] at h
    simp at h

theorem compileSheets_ok_iff : ∀ l : List RawSheet,
    (compileSheets l).isOk = true ↔ ∀ s ∈ l, ∀ c ∈ s.columns.getD [], c.value.isSome = true := by
  intro l
  induction l with
  | nil => simp [compileSheets, Except.isOk, Except.toBool]
  | cons s rest ih =>
    by_cases hs : (compileSheet s).isOk = true
    · cases hsv : compileSheet s with
      | error e => rw [hsv] at hs; simp [Except.isOk, Except.toBool] at hs
      | ok s1 =>
        have he : (compileSheets (s :: rest)).isOk = (compileSheets rest).isOk := by
          rw [compileSheets, hsv]
          cases compileSheets rest <;> simp [Except.isOk, Except.toBool]
        rw [he, ih]
        have hcols := (compileSheet_ok_iff s).mp hs
        constructor
        · intro hrest s2 hs2
          rcases List.mem_cons.mp hs2 with h2 | h2
          · subst h2
            exact hcols
          · exact hrest s2 h2
        · intro hall s2 hs2
          exact hall s2 (List.mem_cons_of_mem s hs2)
    · cases hsv : compileSheet s with
      | error e =>
        have hne : ¬ ∀ c ∈ s.columns.getD [], c.value.isSome = true := by
          rw [← compileSheet_ok_iff s, hsv]
          simp [Except.isOk, Except.toBool]
        rw [compileSheets, hsv]
        simp only [Except.isOk, Except.toBool]
        constructor
        · intro hfalse
          simp at hfalse
        · intro hall
          exact absurd (hall s (List.mem_cons_self s rest)) hne
      | ok s1 => rw [hsv] at hs; simp [Except.isOk, Except.toBool] at hs

theorem compileSheets_error : ∀ (l : List RawSheet) (e : String),
    compileSheets l = Except.error e → e = "value" := by
  intro l
  induction l with
  | nil =>
    intro e h
    simp [compileSheets] at h
  | cons s rest ih =>
    intro e h
    rw [compileSheets] at h
    cases hsv : compileSheet s with
    | error e2 =>
      rw [hsv] at h
      have he : e2 = e := Except.error.inj h
      rw [← he]
      exact compileSheet_error s e2 hsv
    | ok s1 =>
      rw [hsv] at h
      cases hr : compileSheets rest with
      | error e2 =>
        rw [hr] at h
        have he : e2 = e := Except.error.inj h
        rw [← he]
        exact ih e2 hr
      | ok ss =>
        rw [hr] at h
        simp at h

theorem setup_templates_no_formats (sh : Option (List RawSheet)) (co : Option Int) :
    setup_templates (RawConfig.mk none sh co) = Except.error "inputFormats" := rfl

theorem setup_templates_no_sheets (fmts : List RawFormat) (co : Option Int) :
    setup_templates (RawConfig.mk (some fmts) none co) = Except.error "sheets" := rfl

theorem setup_templates_present (fmts : List RawFormat) (sheets : List RawSheet)
    (co : Option Int) :
    setup_templates (RawConfig.mk (some fmts) (some sheets) co)
      = match compileSheets sheets with
        | Except.error e => Except.error e
        | Except.ok ss => Except.ok (Config.mk (fmts.map compileFormat) ss (co.getD 0)) := rfl

/-- Counterexample to C8 as stated: a configuration whose single SheetSpec
has no `columns` key compiles successfully, because `setup_templates` reads
`sheet_config.get('columns', [])` and silently defaults to an empty column
list instead of failing. -/
theorem c8_counterexample :
    (setup_templates (RawConfig.mk (some []) (some [RawSheet.mk "S" none none]) none)).isOk
      = true := rfl

/-- Claim C8 (amended): `setup_templates` fails with an error naming the
missing key exactly when the configuration lacks `inputFormats`, lacks
`sheets`, or some declared column lacks `value`; a SheetSpec without a
`columns` list defaults to no columns and compiles; every compilation error
names one of those three keys; and a compilation error makes the program
exit with code 1. -/
theorem c8_amended_compilation_errors :
    (∀ cfg : RawConfig, cfg.inputFormats = none →
        setup_templates cfg = Except.error "inputFormats")
    ∧ (∀ (cfg : RawConfig) (fmts : List RawFormat), cfg.inputFormats = some fmts →
        cfg.sheets = none → setup_templates cfg = Except.error "sheets")
    ∧ (∀ (cfg : RawConfig) (fmts : List RawFormat) (sheets : List RawSheet),
        cfg.inputFormats = some fmts → cfg.sheets = some sheets →
        ((setup_templates cfg).isOk = true
          ↔ ∀ s ∈ sheets, ∀ c ∈ s.columns.getD [], c.value.isSome = true))
    ∧ (∀ (cfg : RawConfig) (e : String), setup_templates cfg = Except.error e →
        e = "inputFormats" ∨ e = "sheets" ∨ e = "value")
    ∧ (∀ cfg : RawConfig, (setup_templates cfg).isOk = false → main_setup cfg = 1) := by
  refine ⟨?_, ?_, ?_, ?_, ?_⟩
  · intro cfg h
    obtain ⟨fIn, fSh, fCo⟩ := cfg
    replace h : fIn = none := h
    subst h
    exact setup_templates_no_formats fSh fCo
  · intro cfg fmts h1 h2
    obtain ⟨fIn, fSh, fCo⟩ := cfg
    replace h1 : fIn = some fmts := h1
    replace h2 : fSh = none := h2
    subst h1
    subst h2
    exact setup_templates_no_sheets fmts fCo
  · intro cfg fmts sheets h1 h2
    obtain ⟨fIn, fSh, fCo⟩ := cfg
    replace h1 : fIn = some fmts := h1
    replace h2 : fSh = some sheets := h2
    subst h1
    subst h2
    rw [setup_templates_present fmts sheets fCo, ← compileSheets_ok_iff]
    generalize compileSheets sheets = r
    cases r with
    | error e => simp [Except.isOk, Except.toBool]
    | ok ss => simp [Except.isOk, Except.toBool]
  · intro cfg e h
    obtain ⟨fIn, fSh, fCo⟩ := cfg
    cases fIn with
    | none =>
      rw [setup_templates_no_formats fSh fCo] at h
      exact Or.inl (Except.error.inj h).symm
    | some fmts =>
      cases fSh with
      | none =>
        rw [setup_templates_no_sheets fmts fCo] at h
        exact Or.inr (Or.inl (Except.error.inj h).symm)
      | some sheets =>
        rw [setup_templates_present fmts sheets fCo] at h
        split at h
        · rename_i e2 heq
          have he : e2 = e := Except.error.inj h
          rw [← he]
          exact Or.inr (Or.inr (compileSheets_error _ e2 heq))
        · simp at h
  · intro cfg h
    unfold main_setup
    cases hs : setup_templates cfg with
    | error e => rfl
    | ok c =>
      rw [hs] at h
      simp [Except.isOk, Except.toBool] at h

/-- Witness for the amended C8: a configuration without `inputFormats`
fails naming that key, and the program exits with code 1 on it. -/
theorem c8_amended_witness :
    setup_templates (RawConfig.mk none none none) = Except.error "inputFormats"
    ∧ main_setup (RawConfig.mk none none none) = 1 :=
  ⟨c8_amended_compilation_errors.1 (RawConfig.mk none none none) rfl,
   c8_amended_compilation_errors.2.2.2.2 (RawConfig.mk none none none) rfl⟩

/-! ## Cell addressing claims -/

/-- Claim C3: `column_number_to_name` follows the bijective base-26 scheme
of the source (letter `(n-1) mod 26` appended to the recursive result for
`(n-1) div 26` while `n` is positive) and satisfies the fixed points
1 to A, 26 to Z, 27 to AA, 52 to AZ, 53 to BA, 702 to ZZ, 703 to AAA. -/
theorem c3_column_letters :
    (∀ n : Int, 0 < n → column_number_to_name n
        = column_number_to_name ((n - 1) / 26)
          ++ (Char.ofNat (65 + ((n - 1) % 26).toNat)).toString)
    ∧ column_number_to_name 1 = "A" ∧ column_number_to_name 26 = "Z"
    ∧ column_number_to_name 27 = "AA" ∧ column_number_to_name 52 = "AZ"
    ∧ column_number_to_name 53 = "BA" ∧ column_number_to_name 702 = "ZZ"
    ∧ column_number_to_name 703 = "AAA" :=
  ⟨cn_pos, colName_1, colName_26, colName_27, colName_52, colName_53, colName_702, colName_703⟩

/-- Witness for C3: the recurrence instantiated at 2 yields column B. -/
theorem c3_column_letters_witness : column_number_to_name 2 = "B" := by
  have h := c3_column_letters.1 2 (by decide)
  rw [h, show ((2 : Int) - 1) / 26 = 0 by decide, cn_nonpos 0 (by decide)]
  decide

/-- Claim C4: for every positive n, the standard letters-to-number
interpretation of bijective base-26 inverts `column_number_to_name`. -/
theorem c4_roundtrip (n : Int) (h : 0 < n) :
    (name_to_column_number (column_number_to_name n) : Int) = n := by
  have hn : n = ((n.toNat : Nat) : Int) := by omega
  rw [hn, roundtrip_nat n.toNat (by omega)]

/-- Witness for C4 at n = 28 (column AB). -/
theorem c4_roundtrip_witness :
    (0 : Int) < 28 ∧ (name_to_column_number (column_number_to_name 28) : Int) = 28 :=
  ⟨by decide, c4_roundtrip 28 (by decide)⟩

/-- Claim C10: `column_number_to_name` is total, and on any non-positive
integer the loop body never runs, so it returns the empty string; the
resulting cell address is then the row digits alone. -/
theorem c10_nonpositive_column (n : Int) (h : n ≤ 0) :
    column_number_to_name n = ""
    ∧ ∀ rowStr : String, column_number_to_name n ++ rowStr = rowStr := by
  have h0 := cn_nonpos n h
  refine ⟨h0, fun r => ?_⟩
  rw [h0]
  simp

/-- Witness for C10 at n = -5 (as arises from columnOffset = -6 at the
first column) with row 11. -/
theorem c10_nonpositive_column_witness :
    (-5 : Int) ≤ 0 ∧ column_number_to_name (-5) = ""
    ∧ column_number_to_name (-5) ++ "11" = "11" :=
  ⟨by decide, (c10_nonpositive_column (-5) (by decide)).1,
   (c10_nonpositive_column (-5) (by decide)).2 "11"⟩

end Form2List
